import Mathlib

/-!
# Verification of the lwos cooperative kernel

Shallow embedding of the `lwos` crate: the task type and cooperative
scheduler (`src/task.rs`, `src/scheduler.rs`) and the software countdown
timer registry (`src/softtimer.rs`).

Modelling conventions:
* A task's `func: &mut dyn Execute` behavior is represented by an abstract
  label (`Nat`); executing a behavior is recorded as an event in a trace,
  so `Scheduler.process` returns the list of `(behavior, id)` invocations
  it performs, in order.
* Rust methods taking `&mut self` become functions returning the result
  paired with the updated state; methods taking `&self` without interior
  mutation become pure functions.
* The fixed-size arrays `[Option<T>; SIZE]` become `List (Option T)`; the
  const generic `SIZE` is the list length (constructors build it with
  `List.replicate`, and every operation preserves the length).
* `AtomicUsize` counters are `Nat`: the code only uses relaxed loads and
  stores on a single logical thread, so the value semantics coincide.
-/

namespace Lwos

/-- Task states (`task.rs`, `TaskState`). -/
inductive TaskState where
  | Waiting
  | Suspended
  | Running
deriving DecidableEq, Repr

/-- `task.rs`: task structure. `func` is the abstract label of the
caller-supplied `Execute` behavior. -/
structure Task where
  state : TaskState
  id : Nat
  func : Nat
deriving DecidableEq, Repr

/-- `task.rs`, `Task::init`: initializes a task structure. -/
def Task.init (state : TaskState) (id : Nat) (func : Nat) : Task :=
  { state := state, id := id, func := func }

/-- `task.rs`, `Task::suspend`. -/
def Task.suspend (t : Task) : Task :=
  { t with state := TaskState.Suspended }

/-- `task.rs`, `Task::resume`. -/
def Task.resume (t : Task) : Task :=
  { t with state := TaskState.Running }

/-- An execution event: the behavior label that was invoked and the id it
was invoked with. -/
abbrev Event := Nat × Nat

/-- `task.rs`, `Task::process`: dispatches on the state; `Running` invokes
the behavior with the given id (recorded as one trace event), `Waiting`
and `Suspended` do nothing. -/
def Task.process (t : Task) (id : Nat) : List Event :=
  match t.state with
  | TaskState.Running => [(t.func, id)]
  | TaskState.Waiting => []
  | TaskState.Suspended => []

/-- `scheduler.rs`, `enum Error`. -/
inductive Error where
  | LimitExceeded
  | NoSuchTaskId
  | InvalidParameter
deriving DecidableEq, Repr

/-- `scheduler.rs`: the scheduler's slot table `tasks: [Option<Task>; SIZE]`. -/
structure Scheduler where
  tasks : List (Option Task)
deriving DecidableEq, Repr

namespace Scheduler

/-- `Scheduler::new`: all `SIZE` slots empty. -/
def new (size : Nat) : Scheduler :=
  ⟨List.replicate size none⟩

/-- `Scheduler::capacity`. -/
def capacity (s : Scheduler) : Nat :=
  s.tasks.length

/-- Helper for `Scheduler::process`: the loop
`for (index, item) in self.tasks.iter_mut().enumerate()`, carrying the
running index. -/
def processFrom (i : Nat) : List (Option Task) → List Event
  | [] => []
  | item :: rest =>
    (match item with
     | some task => task.process i
     | none => []) ++ processFrom (i + 1) rest

/-- `Scheduler::process`: one cycle over all slots in index order. -/
def process (s : Scheduler) : List Event :=
  processFrom 0 s.tasks

/-- `Scheduler::add`: store the task in the first empty slot and return
its index, or fail with `LimitExceeded`. -/
def add (s : Scheduler) (task : Task) : Except Error Nat × Scheduler :=
  match s.tasks.findIdx? (·.isNone) with
  | some id => (Except.ok id, ⟨s.tasks.set id (some task)⟩)
  | none => (Except.error Error.LimitExceeded, s)

/-- `Scheduler::get`: bounds check against `SIZE`, then occupancy check. -/
def get (s : Scheduler) (id : Nat) : Except Error Task :=
  if s.tasks.length > id then
    match s.tasks[id]? with
    | some (some task) => Except.ok task
    | _ => Except.error Error.NoSuchTaskId
  else
    Except.error Error.InvalidParameter

/-- `Scheduler::remove`: clear the slot when `get` succeeds, otherwise
propagate `get`'s error. -/
def remove (s : Scheduler) (id : Nat) : Except Error Unit × Scheduler :=
  match s.get id with
  | Except.ok _ => (Except.ok (), ⟨s.tasks.set id none⟩)
  | Except.error e => (Except.error e, s)

/-- A caller pattern from `main.rs`: `scheduler.get(id).unwrap().suspend()`.
When `get` succeeds the task in the slot is suspended in place. -/
def suspendAt (s : Scheduler) (id : Nat) : Scheduler :=
  match s.get id with
  | Except.ok task => ⟨s.tasks.set id (some task.suspend)⟩
  | Except.error _ => s

/-- The symmetric caller pattern `scheduler.get(id).unwrap().resume()`. -/
def resumeAt (s : Scheduler) (id : Nat) : Scheduler :=
  match s.get id with
  | Except.ok task => ⟨s.tasks.set id (some task.resume)⟩
  | Except.error _ => s

/-- Registering a batch of tasks one after another (the pattern of
`main.rs` and the capacity test): the list of returned results, paired
with the final scheduler. -/
def addSeq (s : Scheduler) : List Task → List (Except Error Nat) × Scheduler
  | [] => ([], s)
  | t :: rest =>
    let p := s.add t
    let q := addSeq p.2 rest
    (p.1 :: q.1, q.2)

end Scheduler

/-- `lib.rs`, `enum SignalState`. -/
inductive SignalState where
  | NotSignaled
  | Signaled
deriving DecidableEq, Repr

/-- `softtimer.rs`, `enum State`. -/
inductive State where
  | Disabled
  | Stopped
  | Running
deriving DecidableEq, Repr

/-- `softtimer.rs`, `enum SoftTimerErr`. -/
inductive SoftTimerErr where
  | Disabled
  | LimitExceeded
  | NoSuchTimer
  | InvalidParameter
deriving DecidableEq, Repr

/-- `softtimer.rs`, `struct SoftTimerData`. The `AtomicUsize` counter is a
`Nat`: only relaxed loads/stores on one logical thread occur. -/
structure SoftTimerData where
  state : State
  counter : Nat
  threshold : Nat
  auto_restart : Bool
deriving DecidableEq, Repr

/-- `softtimer.rs`, `SoftTimerData::get_signal_state` (the `Signal` impl):
reads the counter; when the timer is `Running` at counter `0` it reports
`Signaled`, reloading the counter to `threshold` first when `auto_restart`
is set; otherwise it reports `NotSignaled` and changes nothing. Returns
the signal together with the data after the read's side effect. -/
def SoftTimerData.get_signal_state (d : SoftTimerData) :
    SignalState × SoftTimerData :=
  if d.state = State.Running ∧ d.counter = 0 then
    (SignalState.Signaled,
     if d.auto_restart then { d with counter := d.threshold } else d)
  else
    (SignalState.NotSignaled, d)

/-- Iterated signal reads: the data after applying the side effect of
`get_signal_state` `n` times in a row (no other operation intervening). -/
def SoftTimerData.readN (d : SoftTimerData) : Nat → SoftTimerData
  | 0 => d
  | n + 1 => ((d.get_signal_state).2).readN n

/-- `softtimer.rs`, `MAX_SOFT_COUNTER`. -/
def MAX_SOFT_COUNTER : Nat := 16

/-- `softtimer.rs`, `struct SofTimers`: the registry's slot table
`[Option<RefCell<SoftTimerData>>; MAX_SOFT_COUNTER]`. -/
structure SofTimers where
  timer : List (Option SoftTimerData)
deriving DecidableEq, Repr

namespace SofTimers

/-- `SofTimers::new`: all `MAX_SOFT_COUNTER` slots empty. -/
def new : SofTimers :=
  ⟨List.replicate MAX_SOFT_COUNTER none⟩

/-- `SofTimers::create`: place a fresh `Disabled` timer with counter,
threshold `0` and `auto_restart = false` in the first empty slot and
return its handle, or fail with `LimitExceeded`. -/
def create (r : SofTimers) : Except SoftTimerErr Nat × SofTimers :=
  match r.timer.findIdx? (·.isNone) with
  | some id =>
    (Except.ok id,
     ⟨r.timer.set id (some { state := State.Disabled, counter := 0,
                             threshold := 0, auto_restart := false })⟩)
  | none => (Except.error SoftTimerErr.LimitExceeded, r)

/-- `SofTimers::delete`: an in-range occupied slot is cleared; every other
case (out-of-range handle, or in-range empty slot) falls through to
`NoSuchTimer`. -/
def delete (r : SofTimers) (handle : Nat) :
    Except SoftTimerErr Unit × SofTimers :=
  if handle < MAX_SOFT_COUNTER then
    match r.timer[handle]? with
    | some (some _) => (Except.ok (), ⟨r.timer.set handle none⟩)
    | _ => (Except.error SoftTimerErr.NoSuchTimer, r)
  else
    (Except.error SoftTimerErr.NoSuchTimer, r)

/-- `SofTimers::start`: out-of-range handle fails `InvalidParameter`;
an in-range empty slot fails `NoSuchTimer`; an occupied slot gets
`threshold` and `counter` set to the new threshold, `auto_restart`
stored, and state `Running`. -/
def start (r : SofTimers) (handle threshold : Nat) (auto_restart : Bool) :
    Except SoftTimerErr Unit × SofTimers :=
  if handle < MAX_SOFT_COUNTER then
    match r.timer[handle]? with
    | some (some t) =>
      (Except.ok (),
       ⟨r.timer.set handle (some { t with threshold := threshold,
                                          counter := threshold,
                                          auto_restart := auto_restart,
                                          state := State.Running })⟩)
    | _ => (Except.error SoftTimerErr.NoSuchTimer, r)
  else
    (Except.error SoftTimerErr.InvalidParameter, r)

/-- `SofTimers::restart`: like `start` but reloads the counter from the
stored threshold and leaves `threshold`/`auto_restart` untouched. -/
def restart (r : SofTimers) (handle : Nat) :
    Except SoftTimerErr Unit × SofTimers :=
  if handle < MAX_SOFT_COUNTER then
    match r.timer[handle]? with
    | some (some t) =>
      (Except.ok (),
       ⟨r.timer.set handle (some { t with counter := t.threshold,
                                          state := State.Running })⟩)
    | _ => (Except.error SoftTimerErr.NoSuchTimer, r)
  else
    (Except.error SoftTimerErr.InvalidParameter, r)

/-- `SofTimers::stop`: sets the state of an occupied in-range slot to
`Stopped`; error cases as in `start`. -/
def stop (r : SofTimers) (handle : Nat) :
    Except SoftTimerErr Unit × SofTimers :=
  if handle < MAX_SOFT_COUNTER then
    match r.timer[handle]? with
    | some (some t) =>
      (Except.ok (), ⟨r.timer.set handle (some { t with state := State.Stopped })⟩)
    | _ => (Except.error SoftTimerErr.NoSuchTimer, r)
  else
    (Except.error SoftTimerErr.InvalidParameter, r)

/-- `SofTimers::disable`: sets the state of an occupied in-range slot to
`Disabled`; error cases as in `start`. -/
def disable (r : SofTimers) (handle : Nat) :
    Except SoftTimerErr Unit × SofTimers :=
  if handle < MAX_SOFT_COUNTER then
    match r.timer[handle]? with
    | some (some t) =>
      (Except.ok (), ⟨r.timer.set handle (some { t with state := State.Disabled })⟩)
    | _ => (Except.error SoftTimerErr.NoSuchTimer, r)
  else
    (Except.error SoftTimerErr.InvalidParameter, r)

/-- The per-entry step of `SofTimers::update`: a `Running` timer with a
positive counter is decremented by one, every other entry is unchanged. -/
def updateEntry : Option SoftTimerData → Option SoftTimerData
  | some t =>
    if t.state = State.Running ∧ 0 < t.counter then
      some { t with counter := t.counter - 1 }
    else
      some t
  | none => none

/-- `SofTimers::update`: apply the countdown step to every slot. -/
def update (r : SofTimers) : SofTimers :=
  ⟨r.timer.map updateEntry⟩

/-- `SofTimers::get`: returns a freshly constructed copy of the timer
data of an in-range occupied slot. Note the error cases as the code has
them: an in-range empty slot yields `InvalidParameter`, while an
out-of-range handle falls through to the final `NoSuchTimer`. -/
def get (r : SofTimers) (handle : Nat) : Except SoftTimerErr SoftTimerData :=
  if handle < MAX_SOFT_COUNTER then
    match r.timer[handle]? with
    | some (some t) =>
      Except.ok { state := t.state, counter := t.counter,
                  auto_restart := t.auto_restart, threshold := t.threshold }
    | _ => Except.error SoftTimerErr.InvalidParameter
  else
    Except.error SoftTimerErr.NoSuchTimer

/-- Iterated `update`. -/
def updateN (r : SofTimers) : Nat → SofTimers
  | 0 => r
  | n + 1 => (r.update).updateN n

end SofTimers

/-! ## Helper lemmas -/

/-- The signal returned by a `get_signal_state` read. -/
theorem signal_fst_eq (d : SoftTimerData) :
    (d.get_signal_state).1 =
      if d.state = State.Running ∧ d.counter = 0 then SignalState.Signaled
      else SignalState.NotSignaled := by
  unfold SoftTimerData.get_signal_state
  split <;> simp

/-- The data after a `get_signal_state` read. -/
theorem signal_snd_eq (d : SoftTimerData) :
    (d.get_signal_state).2 =
      if d.state = State.Running ∧ d.counter = 0 ∧ d.auto_restart = true then
        { d with counter := d.threshold }
      else d := by
  unfold SoftTimerData.get_signal_state
  rcases d with ⟨st, c, th, ar⟩
  cases st <;> cases c <;> cases ar <;> simp

/-- A slot of the updated registry is the `updateEntry` image of the old slot. -/
theorem update_timer_getElem (r : SofTimers) (i : Nat) :
    (r.update).timer[i]? = (r.timer[i]?).map SofTimers.updateEntry := by
  show (r.timer.map SofTimers.updateEntry)[i]? = _
  simp

/-- Unfolding `updateEntry` on an occupied slot. -/
theorem updateEntry_some (t : SoftTimerData) :
    SofTimers.updateEntry (some t) =
      if t.state = State.Running ∧ 0 < t.counter then
        some { t with counter := t.counter - 1 }
      else some t := rfl

/-- `SofTimers.get` succeeds on an in-range occupied slot with a
field-for-field copy of the stored data. -/
theorem get_eq_ok (r : SofTimers) (h : Nat) (t : SoftTimerData)
    (hlt : h < MAX_SOFT_COUNTER) (hslot : r.timer[h]? = some (some t)) :
    r.get h = Except.ok t := by
  unfold SofTimers.get
  rw [if_pos hlt, hslot]

/-- Inversion of a successful `SofTimers.get`. -/
theorem get_ok_inv (r : SofTimers) (h : Nat) (d : SoftTimerData)
    (hget : r.get h = Except.ok d) :
    h < MAX_SOFT_COUNTER ∧ r.timer[h]? = some (some d) := by
  unfold SofTimers.get at hget
  by_cases hlt : h < MAX_SOFT_COUNTER
  · rw [if_pos hlt] at hget
    refine ⟨hlt, ?_⟩
    match hs : r.timer[h]? with
    | some (some t) =>
      rw [hs] at hget
      have ht : t = d := Except.ok.inj hget
      rw [ht]
    | some none => rw [hs] at hget; cases hget
    | none => rw [hs] at hget; cases hget
  · rw [if_neg hlt] at hget
    cases hget

/-- Inversion of a successful `SofTimers.stop`. -/
theorem stop_ok_inv (r r' : SofTimers) (h : Nat)
    (hstop : r.stop h = (Except.ok (), r')) :
    ∃ t, h < MAX_SOFT_COUNTER ∧ r.timer[h]? = some (some t) ∧
      r' = ⟨r.timer.set h (some { t with state := State.Stopped })⟩ := by
  unfold SofTimers.stop at hstop
  by_cases hlt : h < MAX_SOFT_COUNTER
  · rw [if_pos hlt] at hstop
    match hs : r.timer[h]? with
    | some (some t) =>
      rw [hs] at hstop
      exact ⟨t, hlt, rfl, ((Prod.mk.injEq _ _ _ _).mp hstop).2.symm⟩
    | some none => rw [hs] at hstop; cases ((Prod.mk.injEq _ _ _ _).mp hstop).1
    | none => rw [hs] at hstop; cases ((Prod.mk.injEq _ _ _ _).mp hstop).1
  · rw [if_neg hlt] at hstop
    cases ((Prod.mk.injEq _ _ _ _).mp hstop).1

/-- Any number of `update` calls leaves a non-`Running` occupied slot
exactly as it is. -/
theorem updateN_preserves_nonrunning (d : SoftTimerData)
    (hst : d.state ≠ State.Running) (s : SofTimers) (h : Nat)
    (hslot : s.timer[h]? = some (some d)) :
    ∀ n, (s.updateN n).timer[h]? = some (some d) := by
  intro n
  induction n generalizing s with
  | zero => exact hslot
  | succ n ih =>
    show ((s.update).updateN n).timer[h]? = _
    apply ih
    rw [update_timer_getElem, hslot]
    simp [updateEntry_some, hst]

/-! ## Claim theorems -/

/-- C3: `get_signal_state` returns `Signaled` iff the timer's state is
`Running` and its counter is `0`; on such a read, if `auto_restart` is set
the counter is reloaded to `threshold`, and if not the data is unchanged
(counter stays `0`); in every other case it returns `NotSignaled` and
changes nothing. -/
theorem get_signal_state_spec (d : SoftTimerData) :
    ((d.get_signal_state).1 = SignalState.Signaled ↔
      d.state = State.Running ∧ d.counter = 0) ∧
    (d.state = State.Running → d.counter = 0 → d.auto_restart = true →
      (d.get_signal_state).2 = { d with counter := d.threshold }) ∧
    (d.state = State.Running → d.counter = 0 → d.auto_restart = false →
      (d.get_signal_state).2 = d) ∧
    ((d.get_signal_state).1 = SignalState.NotSignaled →
      (d.get_signal_state).2 = d) := by
  refine ⟨?_, ?_, ?_, ?_⟩
  · rw [signal_fst_eq]
    split <;> simp_all
  · intro h1 h2 h3
    rw [signal_snd_eq, if_pos ⟨h1, h2, h3⟩]
  · intro h1 h2 h3
    rw [signal_snd_eq, if_neg]
    simp [h3]
  · intro h
    rw [signal_fst_eq] at h
    rw [signal_snd_eq]
    split at h
    · cases h
    · rename_i hcond
      rw [if_neg]
      intro hc
      exact hcond ⟨hc.1, hc.2.1⟩

/-- Witness for C3 at concrete timers. -/
theorem get_signal_state_spec_witness :
    (SoftTimerData.get_signal_state ⟨State.Running, 0, 5, true⟩).1
        = SignalState.Signaled ∧
    (SoftTimerData.get_signal_state ⟨State.Running, 0, 5, true⟩).2
        = ⟨State.Running, 5, 5, true⟩ ∧
    (SoftTimerData.get_signal_state ⟨State.Running, 0, 7, false⟩).2
        = ⟨State.Running, 0, 7, false⟩ := by
  refine ⟨?_, ?_, ?_⟩
  · exact (get_signal_state_spec ⟨State.Running, 0, 5, true⟩).1.mpr ⟨rfl, rfl⟩
  · exact (get_signal_state_spec ⟨State.Running, 0, 5, true⟩).2.1 rfl rfl rfl
  · exact (get_signal_state_spec ⟨State.Running, 0, 7, false⟩).2.2.1 rfl rfl rfl

/-- C7 counterexample: an auto-restart timer with threshold `0` that is
`Running` at counter `0` reads `Signaled` and, immediately afterwards with
no intervening operation, reads `Signaled` again — the claim promises
`NotSignaled` for every threshold. -/
theorem auto_reload_counterexample :
    ((SoftTimerData.mk State.Running 0 0 true).get_signal_state).1
        = SignalState.Signaled ∧
    ((((SoftTimerData.mk State.Running 0 0 true).get_signal_state).2).get_signal_state).1
        = SignalState.Signaled := by
  exact ⟨rfl, rfl⟩

/-- C7 (amended): for an auto-restart timer with positive threshold, a
`Signaled` read is immediately followed by a `NotSignaled` read; a
non-auto-restart timer that is `Running` at counter `0` reads `Signaled`
on every subsequent read. -/
theorem signal_read_reload (d : SoftTimerData) :
    (d.auto_restart = true → 0 < d.threshold →
      (d.get_signal_state).1 = SignalState.Signaled →
      (((d.get_signal_state).2).get_signal_state).1 = SignalState.NotSignaled) ∧
    (d.auto_restart = false → d.state = State.Running → d.counter = 0 →
      ∀ n, ((d.readN n).get_signal_state).1 = SignalState.Signaled) := by
  constructor
  · intro har hth hsig
    rw [signal_fst_eq] at hsig
    split at hsig
    · rename_i hcond
      rw [signal_snd_eq, if_pos ⟨hcond.1, hcond.2, har⟩, signal_fst_eq]
      rw [if_neg]
      intro hc
      exact absurd (hc.2 ▸ hth) (by simp)
    · cases hsig
  · intro har hst hc
    have hfix : (d.get_signal_state).2 = d := by
      rw [signal_snd_eq, if_neg]
      simp [har]
    have hread : ∀ n, d.readN n = d := by
      intro n
      induction n with
      | zero => rfl
      | succ n ih =>
        show ((d.get_signal_state).2).readN n = d
        rw [hfix]
        exact ih
    intro n
    rw [hread n, signal_fst_eq, if_pos ⟨hst, hc⟩]

/-- C9: after a successful `stop`, the timer keeps its counter value, and
under any number of subsequent `update` calls it is never decremented and
`get_signal_state` on it never returns `Signaled`, even at counter `0`. -/
theorem stop_freezes (r r' : SofTimers) (h : Nat) (d0 : SoftTimerData)
    (hget : r.get h = Except.ok d0)
    (hstop : r.stop h = (Except.ok (), r')) :
    (∀ n, (r'.updateN n).get h = Except.ok { d0 with state := State.Stopped }) ∧
    (({ d0 with state := State.Stopped } : SoftTimerData).get_signal_state).1
      = SignalState.NotSignaled := by
  obtain ⟨hlt, hslot⟩ := get_ok_inv r h d0 hget
  obtain ⟨t, -, hslot', hr'⟩ := stop_ok_inv r r' h hstop
  rw [hslot] at hslot'
  have ht : t = d0 := by
    have := Option.some.inj hslot'
    exact (Option.some.inj this).symm
  subst ht
  have hlen : h < r.timer.length := by
    rcases List.getElem?_eq_some_iff.mp hslot with ⟨hl, -⟩
    exact hl
  have hslotStop : r'.timer[h]? = some (some { t with state := State.Stopped }) := by
    rw [hr']
    exact List.getElem?_set_self hlen
  constructor
  · intro n
    exact get_eq_ok _ h _ hlt
      (updateN_preserves_nonrunning _ (by simp) r' h hslotStop n)
  · rw [signal_fst_eq, if_neg]
    intro hc
    cases hc.1
/-- Witness for C9: a timer started at threshold `3`, ticked once (counter
`2`), then stopped; four further ticks leave the counter at `2` and the
stored timer does not signal. -/
theorem stop_freezes_witness :
    ((((((SofTimers.new.create).2.start 0 3 false).2.update).stop 0).2.updateN 4).get 0
        = Except.ok ⟨State.Stopped, 2, 3, false⟩) ∧
    ((SoftTimerData.mk State.Stopped 2 3 false).get_signal_state).1
        = SignalState.NotSignaled := by
  have h := stop_freezes ((((SofTimers.new.create).2.start 0 3 false).2.update))
    (((((SofTimers.new.create).2.start 0 3 false).2.update).stop 0).2) 0
    ⟨State.Running, 2, 3, false⟩ rfl rfl
  exact ⟨h.1 4, h.2⟩

/-- C10: a successful `get` returns a field-for-field copy of the stored
timer data; operating on the copy (here: a `get_signal_state` read that
performs the auto-restart reload) changes the copy but the registry still
holds, and `get` still returns, the original data. -/
theorem get_snapshot_frame (r : SofTimers) (h : Nat) (d : SoftTimerData)
    (hget : r.get h = Except.ok d) :
    (∀ t, r.timer[h]? = some (some t) → t = d) ∧
    (d.state = State.Running → d.counter = 0 → d.auto_restart = true →
      (d.get_signal_state).2.counter = d.threshold ∧
      r.timer[h]? = some (some d) ∧
      r.get h = Except.ok d ∧
      (0 < d.threshold → (d.get_signal_state).2 ≠ d)) := by
  obtain ⟨hlt, hslot⟩ := get_ok_inv r h d hget
  constructor
  · intro t ht
    rw [hslot] at ht
    exact (Option.some.inj (Option.some.inj ht)).symm
  · intro hst hc har
    have hsnd : (d.get_signal_state).2 = { d with counter := d.threshold } := by
      rw [signal_snd_eq, if_pos ⟨hst, hc, har⟩]
    refine ⟨by rw [hsnd], hslot, hget, ?_⟩
    intro hth heq
    have := congrArg SoftTimerData.counter heq
    rw [hsnd] at this
    have : d.threshold = d.counter := this
    rw [hc] at this
    exact absurd (this ▸ hth) (by simp)

/-- Witness for C10: an expired auto-restart timer; the snapshot read
reloads the copy's counter to `2` while the registry still stores and
returns counter `0`. -/
theorem get_snapshot_frame_witness :
    ((SoftTimerData.mk State.Running 0 2 true).get_signal_state).2.counter = 2 ∧
    (((SofTimers.new.create).2.start 0 2 true).2.updateN 2).timer[0]?
        = some (some ⟨State.Running, 0, 2, true⟩) ∧
    (((SofTimers.new.create).2.start 0 2 true).2.updateN 2).get 0
        = Except.ok ⟨State.Running, 0, 2, true⟩ ∧
    ((SoftTimerData.mk State.Running 0 2 true).get_signal_state).2
        ≠ SoftTimerData.mk State.Running 0 2 true := by
  have h := (get_snapshot_frame ((((SofTimers.new.create).2.start 0 2 true).2.updateN 2))
    0 ⟨State.Running, 0, 2, true⟩ rfl).2 rfl rfl rfl
  exact ⟨h.1, h.2.1, h.2.2.1, h.2.2.2 (by decide)⟩

/-- C4: one `update` decrements every occupied `Running` timer with a
positive counter by exactly one and leaves every other slot unchanged
(counter `0` stays at `0`, non-`Running` timers are skipped); a timer
started with threshold `3` and no auto-restart reads counters `2`, `1`,
`0` after three updates and still `0` after a fourth. -/
theorem update_spec (r : SofTimers) (i : Nat) :
    (∀ t, r.timer[i]? = some (some t) → t.state = State.Running → 0 < t.counter →
      (r.update).timer[i]? = some (some { t with counter := t.counter - 1 })) ∧
    (∀ t, r.timer[i]? = some (some t) → t.state ≠ State.Running ∨ t.counter = 0 →
      (r.update).timer[i]? = some (some t)) ∧
    (r.timer[i]? = some none → (r.update).timer[i]? = some none) ∧
    (r.timer[i]? = none → (r.update).timer[i]? = none) ∧
    ((((SofTimers.new.create).2.start 0 3 false).2.updateN 1).get 0
        = Except.ok ⟨State.Running, 2, 3, false⟩ ∧
     (((SofTimers.new.create).2.start 0 3 false).2.updateN 2).get 0
        = Except.ok ⟨State.Running, 1, 3, false⟩ ∧
     (((SofTimers.new.create).2.start 0 3 false).2.updateN 3).get 0
        = Except.ok ⟨State.Running, 0, 3, false⟩ ∧
     (((SofTimers.new.create).2.start 0 3 false).2.updateN 4).get 0
        = Except.ok ⟨State.Running, 0, 3, false⟩) := by
  refine ⟨?_, ?_, ?_, ?_, rfl, rfl, rfl, rfl⟩
  · intro t hslot hrun hpos
    rw [update_timer_getElem, hslot]
    simp [updateEntry_some, hrun, hpos]
  · intro t hslot hcase
    rw [update_timer_getElem, hslot]
    rcases hcase with hst | hz
    · simp [updateEntry_some, hst]
    · simp [updateEntry_some, hz]
  · intro hslot
    rw [update_timer_getElem, hslot]
    rfl
  · intro hslot
    rw [update_timer_getElem, hslot]
    rfl

/-- Witness for C4: a running timer at counter `3` is decremented to `2`,
a stopped timer and a timer at counter `0` are left alone. -/
theorem update_spec_witness :
    ((((SofTimers.new.create).2.start 0 3 false).2.update).timer[0]?
        = some (some ⟨State.Running, 2, 3, false⟩)) ∧
    ((SofTimers.mk [some ⟨State.Stopped, 4, 4, false⟩]).update).timer[0]?
        = some (some ⟨State.Stopped, 4, 4, false⟩) ∧
    ((SofTimers.mk [some ⟨State.Running, 0, 4, false⟩]).update).timer[0]?
        = some (some ⟨State.Running, 0, 4, false⟩) := by
  refine ⟨?_, ?_, ?_⟩
  · exact (update_spec (((SofTimers.new.create).2.start 0 3 false).2) 0).1
      ⟨State.Running, 3, 3, false⟩ (by decide) rfl (by decide)
  · exact (update_spec (SofTimers.mk [some ⟨State.Stopped, 4, 4, false⟩]) 0).2.1
      ⟨State.Stopped, 4, 4, false⟩ (by decide) (Or.inl (by decide))
  · exact (update_spec (SofTimers.mk [some ⟨State.Running, 0, 4, false⟩]) 0).2.1
      ⟨State.Running, 0, 4, false⟩ (by decide) (Or.inr rfl)

/-- C8 counterexample: `create` leaves the new timer `Disabled`, yet
`start` and `restart` on it succeed — the claim promises a
`NotRegistered`/`Disabled` failure. -/
theorem start_disabled_counterexample :
    ((SofTimers.new.create).2.get 0 = Except.ok ⟨State.Disabled, 0, 0, false⟩) ∧
    (((SofTimers.new.create).2.start 0 5 false).1 = Except.ok ()) ∧
    (((SofTimers.new.create).2.restart 0).1 = Except.ok ()) :=
  ⟨rfl, rfl, rfl⟩

/-- C8 (amended): `start` and `restart` fail with `InvalidParameter` on an
out-of-range handle and with `NoSuchTimer` on an in-range empty slot, and
succeed on any occupied slot — whatever its state, `Disabled` included —
setting the state to `Running` and loading the counter (`start`: to the
new threshold, also storing it and the auto-restart flag; `restart`: to
the stored threshold), leaving every other slot unchanged. -/
theorem start_restart_spec (r : SofTimers) (handle threshold : Nat) (ar : Bool) :
    (MAX_SOFT_COUNTER ≤ handle →
      r.start handle threshold ar = (Except.error SoftTimerErr.InvalidParameter, r) ∧
      r.restart handle = (Except.error SoftTimerErr.InvalidParameter, r)) ∧
    (handle < MAX_SOFT_COUNTER → r.timer[handle]? = some none →
      r.start handle threshold ar = (Except.error SoftTimerErr.NoSuchTimer, r) ∧
      r.restart handle = (Except.error SoftTimerErr.NoSuchTimer, r)) ∧
    (∀ t, handle < MAX_SOFT_COUNTER → r.timer[handle]? = some (some t) →
      r.start handle threshold ar =
        (Except.ok (),
         ⟨r.timer.set handle (some ⟨State.Running, threshold, threshold, ar⟩)⟩) ∧
      r.restart handle =
        (Except.ok (),
         ⟨r.timer.set handle
            (some ⟨State.Running, t.threshold, t.threshold, t.auto_restart⟩)⟩)) := by
  refine ⟨?_, ?_, ?_⟩
  · intro hge
    have hlt : ¬ handle < MAX_SOFT_COUNTER := Nat.not_lt.mpr hge
    unfold SofTimers.start SofTimers.restart
    rw [if_neg hlt, if_neg hlt]
    exact ⟨rfl, rfl⟩
  · intro hlt hslot
    unfold SofTimers.start SofTimers.restart
    rw [if_pos hlt, if_pos hlt, hslot]
    exact ⟨rfl, rfl⟩
  · intro t hlt hslot
    unfold SofTimers.start SofTimers.restart
    rw [if_pos hlt, if_pos hlt, hslot]
    exact ⟨rfl, rfl⟩

/-- Witness for C8 (amended): out-of-range handle `20`, empty slot `3`,
and a freshly created (`Disabled`) timer that `start` succeeds on. -/
theorem start_restart_spec_witness :
    (SofTimers.new.start 20 5 true
        = (Except.error SoftTimerErr.InvalidParameter, SofTimers.new)) ∧
    (SofTimers.new.restart 20
        = (Except.error SoftTimerErr.InvalidParameter, SofTimers.new)) ∧
    (SofTimers.new.start 3 5 true
        = (Except.error SoftTimerErr.NoSuchTimer, SofTimers.new)) ∧
    (((SofTimers.new.create).2.start 0 5 true).1 = Except.ok ()) := by
  have h20 := (start_restart_spec SofTimers.new 20 5 true).1 (by decide)
  have h3 := (start_restart_spec SofTimers.new 3 5 true).2.1 (by decide) (by decide)
  have h0 := (start_restart_spec ((SofTimers.new.create).2) 0 5 true).2.2
    ⟨State.Disabled, 0, 0, false⟩ (by decide) (by decide)
  exact ⟨h20.1, h20.2, h3.1, by rw [h0.1]⟩

/-- C5: evaluation of `SofTimers.get` and `SofTimers.delete` at the
claim's inputs, next to `Scheduler.get` for contrast: `get` returns
`NoSuchTimer` for an out-of-range handle and `InvalidParameter` for an
in-range empty slot (swapped relative to `Scheduler.get`), and `delete`
returns `NoSuchTimer` in both cases. -/
theorem get_delete_error_codes :
    (SofTimers.new.get 16 = Except.error SoftTimerErr.NoSuchTimer) ∧
    (SofTimers.new.get 0 = Except.error SoftTimerErr.InvalidParameter) ∧
    ((SofTimers.new.delete 16).1 = Except.error SoftTimerErr.NoSuchTimer) ∧
    ((SofTimers.new.delete 0).1 = Except.error SoftTimerErr.NoSuchTimer) ∧
    ((Scheduler.new 16).get 16 = Except.error Error.InvalidParameter) ∧
    ((Scheduler.new 16).get 0 = Except.error Error.NoSuchTaskId) :=
  ⟨rfl, rfl, rfl, rfl, rfl, rfl⟩

/-- Witness for C7 (amended) at concrete timers. -/
theorem signal_read_reload_witness :
    ((((SoftTimerData.mk State.Running 0 1 true).get_signal_state).2).get_signal_state).1
        = SignalState.NotSignaled ∧
    (((SoftTimerData.mk State.Running 0 9 false).readN 3).get_signal_state).1
        = SignalState.Signaled := by
  constructor
  · exact (signal_read_reload ⟨State.Running, 0, 1, true⟩).1 rfl (by decide) rfl
  · exact (signal_read_reload ⟨State.Running, 0, 9, false⟩).2 rfl rfl rfl 3

/-- Unfolding the `process` loop one slot at a time. -/
theorem processFrom_cons (i : Nat) (o : Option Task) (rest : List (Option Task)) :
    Scheduler.processFrom i (o :: rest) =
      (match o with
       | some task => task.process i
       | none => []) ++ Scheduler.processFrom (i + 1) rest := rfl

/-- `Task.process` as a conditional on the state. -/
theorem task_process_eq (t : Task) (i : Nat) :
    t.process i = if t.state = TaskState.Running then [(t.func, i)] else [] := by
  unfold Task.process
  rcases t with ⟨st, id, f⟩
  cases st <;> simp

/-- An event emitted by `Task.process` is the task's behavior at the
given id. -/
theorem mem_task_process (t : Task) (i : Nat) (e : Event)
    (h : e ∈ t.process i) : e = (t.func, i) := by
  rw [task_process_eq] at h
  split at h
  · simpa using h
  · cases h

/-- Every event emitted from slot position `i` onwards carries an index
of at least `i`. -/
theorem processFrom_index_ge (ts : List (Option Task)) (i : Nat) :
    ∀ e ∈ Scheduler.processFrom i ts, i ≤ e.2 := by
  induction ts generalizing i with
  | nil => intro e he; cases he
  | cons o rest ih =>
    intro e he
    rw [processFrom_cons] at he
    rcases List.mem_append.mp he with h1 | h2
    · cases o with
      | some t =>
        rw [mem_task_process t i e h1]
      | none => cases h1
    · exact Nat.le_of_succ_le (ih (i + 1) e h2)

/-- The trace indices are strictly increasing: each slot is visited at
most once and in index order. -/
theorem processFrom_pairwise (ts : List (Option Task)) (i : Nat) :
    (Scheduler.processFrom i ts).Pairwise (fun a b => a.2 < b.2) := by
  induction ts generalizing i with
  | nil => exact List.Pairwise.nil
  | cons o rest ih =>
    rw [processFrom_cons]
    rw [List.pairwise_append]
    refine ⟨?_, ih (i + 1), ?_⟩
    · cases o with
      | some t =>
        show (t.process i).Pairwise (fun a b => a.2 < b.2)
        rw [task_process_eq]
        split
        · simp
        · simp
      | none => exact List.Pairwise.nil
    · intro a ha b hb
      cases o with
      | some t =>
        rw [mem_task_process t i a ha]
        exact Nat.lt_of_succ_le (processFrom_index_ge rest (i + 1) b hb)
      | none => cases ha

/-- The events of the trace carrying slot index `i + k` are exactly the
events slot `k` emits. -/
theorem processFrom_filter (ts : List (Option Task)) (i k : Nat) :
    (Scheduler.processFrom i ts).filter (fun e => e.2 == i + k) =
      (match ts[k]? with
       | some (some t) => t.process (i + k)
       | _ => []) := by
  induction ts generalizing i k with
  | nil => simp [Scheduler.processFrom]
  | cons o rest ih =>
    rw [processFrom_cons, List.filter_append]
    cases o with
    | none =>
      have hred : (match (none : Option Task) with
          | some task => task.process i
          | none => ([] : List Event)) = ([] : List Event) := rfl
      rw [hred, List.filter_nil, List.nil_append]
      cases k with
      | zero =>
        have hrest :
            (Scheduler.processFrom (i + 1) rest).filter (fun e => e.2 == i + 0) = [] := by
          rw [List.filter_eq_nil_iff]
          intro e he
          have hge := processFrom_index_ge rest (i + 1) e he
          simp only [Nat.add_zero, beq_iff_eq]
          omega
        rw [hrest]
        simp
      | succ k =>
        have hstep : i + (k + 1) = (i + 1) + k := by omega
        rw [hstep, ih (i + 1) k]
        simp
    | some t =>
      have hred : (match (some t : Option Task) with
          | some task => task.process i
          | none => ([] : List Event)) = t.process i := rfl
      rw [hred]
      cases k with
      | zero =>
        have hblock : (t.process i).filter (fun e => e.2 == i + 0) = t.process i := by
          rw [List.filter_eq_self]
          intro e he
          rw [mem_task_process t i e he]
          simp
        have hrest :
            (Scheduler.processFrom (i + 1) rest).filter (fun e => e.2 == i + 0) = [] := by
          rw [List.filter_eq_nil_iff]
          intro e he
          have hge := processFrom_index_ge rest (i + 1) e he
          simp only [Nat.add_zero, beq_iff_eq]
          omega
        rw [hblock, hrest, List.append_nil]
        simp
      | succ k =>
        have hblock : (t.process i).filter (fun e => e.2 == i + (k + 1)) = [] := by
          rw [List.filter_eq_nil_iff]
          intro e he
          rw [mem_task_process t i e he]
          simp only [beq_iff_eq]
          omega
        have hstep : i + (k + 1) = (i + 1) + k := by omega
        rw [hblock, List.nil_append, hstep, ih (i + 1) k]
        simp

/-- C1: one `process` cycle visits the slots in strictly increasing index
order; an occupied slot `k` contributes exactly one invocation of its
behavior at id `k` when `Running` and none when `Suspended` or `Waiting`;
an empty slot contributes nothing; and three `Running` tasks `a`, `b`,
`c` in slots `0`, `1`, `2` are executed as `a`, then `b`, then `c`,
exactly once each. -/
theorem process_round_robin (ts : List (Option Task)) :
    ((Scheduler.mk ts).process).Pairwise (fun a b => a.2 < b.2) ∧
    (∀ k t, ts[k]? = some (some t) →
      ((Scheduler.mk ts).process).filter (fun e => e.2 == k) =
        if t.state = TaskState.Running then [(t.func, k)] else []) ∧
    (∀ k, ts[k]? = some none →
      ((Scheduler.mk ts).process).filter (fun e => e.2 == k) = []) ∧
    (∀ a b c : Nat,
      (Scheduler.mk [some (Task.init TaskState.Running 0 a),
                     some (Task.init TaskState.Running 1 b),
                     some (Task.init TaskState.Running 2 c)]).process
        = [(a, 0), (b, 1), (c, 2)]) := by
  refine ⟨processFrom_pairwise ts 0, ?_, ?_, ?_⟩
  · intro k t h
    have hf := processFrom_filter ts 0 k
    rw [h] at hf
    simp only [Nat.zero_add] at hf
    rw [show (Scheduler.mk ts).process = Scheduler.processFrom 0 ts from rfl, hf,
      task_process_eq]
  · intro k h
    have hf := processFrom_filter ts 0 k
    rw [h] at hf
    simp only [Nat.zero_add] at hf
    rw [show (Scheduler.mk ts).process = Scheduler.processFrom 0 ts from rfl, hf]
  · intro a b c
    rfl

/-- Witness for C1: a three-task scheduler with the middle task
suspended runs the first and third behaviors only, in order. -/
theorem process_round_robin_witness :
    ((Scheduler.mk [some (Task.init TaskState.Running 0 10),
                    some (Task.init TaskState.Running 1 11),
                    some (Task.init TaskState.Running 2 12)]).process
      = [(10, 0), (11, 1), (12, 2)]) ∧
    ((Scheduler.mk [some (Task.init TaskState.Suspended 0 10), none]).process).filter
        (fun e => e.2 == 0) = [] ∧
    ((Scheduler.mk [some (Task.init TaskState.Suspended 0 10), none]).process).filter
        (fun e => e.2 == 1) = [] := by
  refine ⟨?_, ?_, ?_⟩
  · exact (process_round_robin []).2.2.2 10 11 12
  · have h := (process_round_robin
      [some (Task.init TaskState.Suspended 0 10), none]).2.1 0
      (Task.init TaskState.Suspended 0 10) rfl
    rw [if_neg (by decide)] at h
    exact h
  · exact (process_round_robin
      [some (Task.init TaskState.Suspended 0 10), none]).2.2.1 1 rfl

/-- The slot index found by the first-free scan is an empty slot, and no
earlier slot is empty. -/
theorem findIdx_isNone_spec (ts : List (Option Task)) (i : Nat)
    (h : ts.findIdx? (·.isNone) = some i) :
    ts[i]? = some none ∧ ∀ j, j < i → ts[j]? ≠ some none := by
  rw [List.findIdx?_eq_some_iff_getElem] at h
  obtain ⟨hlt, hp, hbefore⟩ := h
  constructor
  · rw [List.getElem?_eq_getElem hlt]
    cases hts : ts[i] with
    | some t => simp [hts] at hp
    | none => rfl
  · intro j hj hcontra
    have hjlt : j < ts.length := Nat.lt_trans hj hlt
    rw [List.getElem?_eq_getElem hjlt] at hcontra
    have hnone : ts[j] = none := Option.some.inj hcontra
    have hnp := hbefore j hj
    rw [hnone] at hnp
    exact hnp rfl

/-- A list with a known empty slot has a successful first-free scan. -/
theorem findIdx_isNone_of_empty (ts : List (Option Task)) (j : Nat)
    (h : ts[j]? = some none) : ∃ i, ts.findIdx? (·.isNone) = some i := by
  refine ⟨ts.findIdx (·.isNone), List.findIdx?_eq_some_of_exists ⟨none, ?_, rfl⟩⟩
  exact List.getElem?_mem h

/-- A list with every slot occupied has a failing first-free scan. -/
theorem findIdx_isNone_of_full (ts : List (Option Task))
    (h : ∀ o ∈ ts, o ≠ none) : ts.findIdx? (·.isNone) = none := by
  rw [List.findIdx?_eq_none_iff]
  intro o ho
  cases o with
  | some t => rfl
  | none => exact absurd rfl (h none ho)

/-- The first-free scan of a fully occupied prefix followed by an empty
slot finds exactly the prefix length. -/
theorem findIdx_map_some_append (l1 : List Task) (l2 : List (Option Task)) :
    ((l1.map some ++ (none :: l2)).findIdx? (·.isNone)) = some l1.length := by
  induction l1 with
  | nil => rfl
  | cons a l ih =>
    simp only [List.map_cons, List.cons_append, List.findIdx?_cons]
    rw [if_neg (by simp)]
    rw [List.findIdx?_succ, ih]
    rfl

/-- Setting the slot just past a fully occupied prefix. -/
theorem set_map_some_append (l1 : List Task) (x : Option Task)
    (l2 : List (Option Task)) (v : Option Task) :
    (l1.map some ++ x :: l2).set l1.length v = l1.map some ++ v :: l2 := by
  induction l1 with
  | nil => rfl
  | cons a l ih =>
    simp only [List.map_cons, List.cons_append, List.length_cons, List.set_cons_succ]
    rw [ih]

/-- Adding a batch of tasks to a scheduler made of a fully occupied
prefix and empty tail yields consecutive ids starting at the prefix
length. -/
theorem addSeq_ids (l : List Task) (l1 : List Task) :
    (Scheduler.addSeq ⟨l1.map some ++ List.replicate l.length none⟩ l).1
      = (List.range' l1.length l.length).map Except.ok := by
  induction l generalizing l1 with
  | nil => rfl
  | cons t rest ih =>
    show (Scheduler.addSeq ⟨l1.map some ++ List.replicate (rest.length + 1) none⟩
      (t :: rest)).1 = _
    rw [List.replicate_succ]
    have hfind := findIdx_map_some_append l1 (List.replicate rest.length none)
    have hadd : (Scheduler.mk (l1.map some ++ none :: List.replicate rest.length none)).add t
        = (Except.ok l1.length,
           ⟨(l1.map some ++ none :: List.replicate rest.length none).set l1.length (some t)⟩) := by
      unfold Scheduler.add
      rw [hfind]
    have hset : (l1.map some ++ none :: List.replicate rest.length none).set l1.length (some t)
        = (l1 ++ [t]).map some ++ List.replicate rest.length none := by
      rw [set_map_some_append]
      simp
    show ((Scheduler.mk (l1.map some ++ none :: List.replicate rest.length none)).add t).1 ::
        (Scheduler.addSeq ((Scheduler.mk
          (l1.map some ++ none :: List.replicate rest.length none)).add t).2 rest).1 = _
    rw [hadd, hset]
    have := ih (l1 ++ [t])
    rw [this]
    have hlen : (l1 ++ [t]).length = l1.length + 1 := by simp
    rw [hlen]
    rfl

/-- C2: whenever some slot is empty, `add` stores the task in the
lowest-index empty slot and returns `Ok` with that index; adding `C`
tasks to a fresh capacity-`C` scheduler returns ids `0, …, C-1` in
registration order; when every slot is occupied `add` fails with
`LimitExceeded` and leaves the scheduler — every slot and every stored
task — unchanged. -/
theorem add_first_free (s : Scheduler) (t : Task) (l : List Task) (C : Nat) :
    ((∃ j : Nat, s.tasks[j]? = some none) →
      ∃ i : Nat, s.tasks[i]? = some none ∧
        (∀ j : Nat, j < i → s.tasks[j]? ≠ some none) ∧
        s.add t = (Except.ok i, ⟨s.tasks.set i (some t)⟩)) ∧
    ((∀ o ∈ s.tasks, o ≠ none) →
      s.add t = (Except.error Error.LimitExceeded, s)) ∧
    (l.length = C →
      (Scheduler.addSeq (Scheduler.new C) l).1 = (List.range C).map Except.ok) := by
  refine ⟨?_, ?_, ?_⟩
  · rintro ⟨j, hj⟩
    obtain ⟨i, hi⟩ := findIdx_isNone_of_empty s.tasks j hj
    obtain ⟨hempty, hlow⟩ := findIdx_isNone_spec s.tasks i hi
    refine ⟨i, hempty, hlow, ?_⟩
    unfold Scheduler.add
    rw [hi]
  · intro hfull
    unfold Scheduler.add
    rw [findIdx_isNone_of_full s.tasks hfull]
  · intro hC
    subst hC
    have := addSeq_ids l []
    simp only [List.map_nil, List.nil_append, List.length_nil] at this
    rw [Scheduler.new, this, List.range_eq_range']

/-- Witness for C2: a two-slot scheduler with slot `0` occupied takes the
new task at slot `1`; a full one-slot scheduler rejects the add
unchanged; two adds to a fresh two-slot scheduler return ids `0`, `1`. -/
theorem add_first_free_witness :
    (∃ i, (Scheduler.mk [some (Task.init TaskState.Running 0 4), none]).tasks[i]?
            = some none ∧
      (∀ j, j < i →
        (Scheduler.mk [some (Task.init TaskState.Running 0 4), none]).tasks[j]?
          ≠ some none) ∧
      (Scheduler.mk [some (Task.init TaskState.Running 0 4), none]).add
          (Task.init TaskState.Running 0 5)
        = (Except.ok i,
           ⟨[some (Task.init TaskState.Running 0 4), none].set i
              (some (Task.init TaskState.Running 0 5))⟩)) ∧
    ((Scheduler.mk [some (Task.init TaskState.Running 0 4)]).add
        (Task.init TaskState.Running 0 5)
      = (Except.error Error.LimitExceeded,
         Scheduler.mk [some (Task.init TaskState.Running 0 4)])) ∧
    ((Scheduler.addSeq (Scheduler.new 2)
        [Task.init TaskState.Running 0 4, Task.init TaskState.Running 0 5]).1
      = (List.range 2).map Except.ok) := by
  refine ⟨?_, ?_, ?_⟩
  · exact (add_first_free (Scheduler.mk [some (Task.init TaskState.Running 0 4), none])
      (Task.init TaskState.Running 0 5) [] 0).1 ⟨1, rfl⟩
  · exact (add_first_free (Scheduler.mk [some (Task.init TaskState.Running 0 4)])
      (Task.init TaskState.Running 0 5) [] 0).2.1 (by decide)
  · exact (add_first_free (Scheduler.mk [])
      (Task.init TaskState.Running 0 4) [Task.init TaskState.Running 0 4,
        Task.init TaskState.Running 0 5] 2).2.2 rfl

/-- C6 counterexample: adding a task created with id `42` to a fresh
one-slot scheduler is a reachable state whose occupied slot `0` holds a
task whose `id` field is `42`, not the slot index `0`. -/
theorem slot_id_counterexample :
    (((Scheduler.new 1).add (Task.init TaskState.Running 42 7)).2.tasks[0]?
        = some (some (Task.init TaskState.Running 42 7))) ∧
    (Task.init TaskState.Running 42 7).id = 42 ∧
    (42 : Nat) ≠ 0 := by
  exact ⟨rfl, rfl, by decide⟩

/-- Inversion of a successful `Scheduler.get`. -/
theorem sget_ok_inv (s : Scheduler) (id : Nat) (t : Task)
    (h : s.get id = Except.ok t) :
    id < s.tasks.length ∧ s.tasks[id]? = some (some t) := by
  unfold Scheduler.get at h
  by_cases hlt : s.tasks.length > id
  · rw [if_pos hlt] at h
    refine ⟨hlt, ?_⟩
    match hs : s.tasks[id]? with
    | some (some u) =>
      rw [hs] at h
      rw [Except.ok.inj h]
    | some none => rw [hs] at h; cases h
    | none => rw [hs] at h; cases h
  · rw [if_neg hlt] at h
    cases h

/-- C6 (amended): `add` stores the caller's task verbatim — its `id`
field keeps the value fixed at creation and is not rewritten to the slot
index — and no other operation (`remove`, suspension or resumption
through `get`) ever changes the `id` or behavior of a stored task; so
every occupied slot holds exactly the task that was added to it, and its
`id` equals the slot index only if the caller created it that way. -/
theorem stored_task_fields (s : Scheduler) (t : Task) (id : Nat) :
    (∀ (i : Nat) (u : Task), ((s.add t).2).tasks[i]? = some (some u) →
      s.tasks[i]? = some (some u) ∨ (u = t ∧ (s.add t).1 = Except.ok i)) ∧
    (∀ (i : Nat) (u : Task), ((s.remove id).2).tasks[i]? = some (some u) →
      s.tasks[i]? = some (some u)) ∧
    (∀ (i : Nat) (u : Task), (s.suspendAt id).tasks[i]? = some (some u) →
      ∃ v : Task, s.tasks[i]? = some (some v) ∧ u.id = v.id ∧ u.func = v.func) ∧
    (∀ (i : Nat) (u : Task), (s.resumeAt id).tasks[i]? = some (some u) →
      ∃ v : Task, s.tasks[i]? = some (some v) ∧ u.id = v.id ∧ u.func = v.func) := by
  refine ⟨?_, ?_, ?_, ?_⟩
  · intro i u hu
    cases hfind : s.tasks.findIdx? (·.isNone) with
    | some j =>
      have hadd : s.add t = (Except.ok j, ⟨s.tasks.set j (some t)⟩) := by
        unfold Scheduler.add
        rw [hfind]
      rw [hadd] at hu
      rw [show (Scheduler.mk (s.tasks.set j (some t))).tasks
          = s.tasks.set j (some t) from rfl] at hu
      rw [List.getElem?_set] at hu
      by_cases hij : j = i
      · rw [if_pos hij] at hu
        by_cases hjl : j < s.tasks.length
        · rw [if_pos hjl] at hu
          right
          refine ⟨(Option.some.inj (Option.some.inj hu)).symm, ?_⟩
          rw [hadd, hij]
        · rw [if_neg hjl] at hu
          cases hu
      · rw [if_neg hij] at hu
        exact Or.inl hu
    | none =>
      have hadd : s.add t = (Except.error Error.LimitExceeded, s) := by
        unfold Scheduler.add
        rw [hfind]
      rw [hadd] at hu
      exact Or.inl hu
  · intro i u hu
    cases hget : s.get id with
    | ok v =>
      have hrem : s.remove id = (Except.ok (), ⟨s.tasks.set id none⟩) := by
        unfold Scheduler.remove
        rw [hget]
      rw [hrem] at hu
      rw [show (Scheduler.mk (s.tasks.set id none)).tasks
          = s.tasks.set id none from rfl] at hu
      rw [List.getElem?_set] at hu
      by_cases hij : id = i
      · rw [if_pos hij] at hu
        by_cases hjl : id < s.tasks.length
        · rw [if_pos hjl] at hu; cases hu
        · rw [if_neg hjl] at hu; cases hu
      · rw [if_neg hij] at hu
        exact hu
    | error e =>
      have hrem : s.remove id = (Except.error e, s) := by
        unfold Scheduler.remove
        rw [hget]
      rw [hrem] at hu
      exact hu
  · intro i u hu
    cases hget : s.get id with
    | ok v =>
      have hsus : s.suspendAt id = ⟨s.tasks.set id (some v.suspend)⟩ := by
        unfold Scheduler.suspendAt
        rw [hget]
      rw [hsus] at hu
      rw [show (Scheduler.mk (s.tasks.set id (some v.suspend))).tasks
          = s.tasks.set id (some v.suspend) from rfl] at hu
      rw [List.getElem?_set] at hu
      by_cases hij : id = i
      · rw [if_pos hij] at hu
        by_cases hjl : id < s.tasks.length
        · rw [if_pos hjl] at hu
          obtain ⟨-, hslot⟩ := sget_ok_inv s id v hget
          refine ⟨v, hij ▸ hslot, ?_, ?_⟩ <;>
            rw [← Option.some.inj (Option.some.inj hu)] <;> rfl
        · rw [if_neg hjl] at hu; cases hu
      · rw [if_neg hij] at hu
        exact ⟨u, hu, rfl, rfl⟩
    | error e =>
      have hsus : s.suspendAt id = s := by
        unfold Scheduler.suspendAt
        rw [hget]
      rw [hsus] at hu
      exact ⟨u, hu, rfl, rfl⟩
  · intro i u hu
    cases hget : s.get id with
    | ok v =>
      have hres : s.resumeAt id = ⟨s.tasks.set id (some v.resume)⟩ := by
        unfold Scheduler.resumeAt
        rw [hget]
      rw [hres] at hu
      rw [show (Scheduler.mk (s.tasks.set id (some v.resume))).tasks
          = s.tasks.set id (some v.resume) from rfl] at hu
      rw [List.getElem?_set] at hu
      by_cases hij : id = i
      · rw [if_pos hij] at hu
        by_cases hjl : id < s.tasks.length
        · rw [if_pos hjl] at hu
          obtain ⟨-, hslot⟩ := sget_ok_inv s id v hget
          refine ⟨v, hij ▸ hslot, ?_, ?_⟩ <;>
            rw [← Option.some.inj (Option.some.inj hu)] <;> rfl
        · rw [if_neg hjl] at hu; cases hu
      · rw [if_neg hij] at hu
        exact ⟨u, hu, rfl, rfl⟩
    | error e =>
      have hres : s.resumeAt id = s := by
        unfold Scheduler.resumeAt
        rw [hget]
      rw [hres] at hu
      exact ⟨u, hu, rfl, rfl⟩

/-- Witness for C6 (amended): the task with creation id `42` added at
slot `0` is stored verbatim, and suspending it through `get` keeps its
`id` `42` and behavior label. -/
theorem stored_task_fields_witness :
    ((Scheduler.mk [none]).tasks[0]? = some (some (Task.init TaskState.Running 42 7)) ∨
      (Task.init TaskState.Running 42 7 = Task.init TaskState.Running 42 7 ∧
        ((Scheduler.mk [none]).add (Task.init TaskState.Running 42 7)).1
          = Except.ok 0)) ∧
    (∃ v, (Scheduler.mk [some (Task.init TaskState.Running 42 7)]).tasks[0]?
            = some (some v) ∧
      (Task.init TaskState.Suspended 42 7).id = v.id ∧
      (Task.init TaskState.Suspended 42 7).func = v.func) := by
  constructor
  · exact (stored_task_fields (Scheduler.mk [none])
      (Task.init TaskState.Running 42 7) 0).1 0 (Task.init TaskState.Running 42 7) rfl
  · exact (stored_task_fields (Scheduler.mk [some (Task.init TaskState.Running 42 7)])
      (Task.init TaskState.Running 42 7) 0).2.2.1 0 (Task.init TaskState.Suspended 42 7) rfl

end Lwos
